import Mathlib

/-!
Verification of the museumcode photogrammetry pipeline.

Shallow embedding of the repository sources:
  * photogrammetry/ModelHelpers.py
  * photogrammetry/MetashapeTools.py
  * processing/processingTools.py
  * processing/image_processing.py
  * util/util.py

Machine reals in the source are modelled by the rationals, Python strings
by lists of characters (or Lean strings), and the external Metashape
engine by explicit state records.  Operations of external libraries
(Metashape, PIL) that the repository only calls are modelled from the
specification and marked as such in their doc comments.
-/

namespace MuseumCode


/-- A Python string, modelled as its list of characters. -/
abbrev PyStr := List Char


/-! ## ModelHelpers.remove_above_error_threshold

The tie points of a chunk, viewed through one fixed
`Metashape.TiePoints.Filter`, are represented by the list of per-point
error values that `errorfilter.values` reports; removing points removes
entries of the list. -/

/-- The tie-point cloud of a chunk, as the list of error values of its
points under one fixed filter type. -/
abbrev TiePointErrors := List ℚ


/-- Modelled from the spec: `errorfilter.selectPoints(v)` followed by
`tiepoints.removeSelectedPoints()` (Metashape engine calls, external to the
repository) deletes every point whose error value is strictly above `v`;
the surviving points are exactly those with error value at most `v`. -/
def removeSelectedAbove (points : TiePointErrors) (v : ℚ) : TiePointErrors :=
  points.filter (fun e => decide (e ≤ v))


/-- The loop `for i,v in enumerate(errorvals)` of
`remove_above_error_threshold` (ModelHelpers.py lines 235-242): walk the
descending error values, continuing while the value exceeds `maxError` and
the one-based position `i + 1` (Python integer arithmetic) stays within
the removal budget; the result is the value at which the loop breaks, or
`none` when the loop runs to completion without breaking. -/
def scanStop (maxError maxRemoval : ℚ) : List ℚ → ℕ → Option ℚ
  | [], _ => none
  | v :: rest, i =>
      if maxError < v ∧ (((i + 1 : ℕ) : ℚ)) ≤ maxRemoval then
        scanStop maxError maxRemoval rest (i + 1)
      else
        some v


/-- ModelHelpers.remove_above_error_threshold (lines 213-243).  The removal
budget `max_removal` is `num_points * max_points`; the error values are
sorted in descending order and scanned with `scanStop`; on break the code
selects and removes all points whose error is above the stopping value and
sets `removed_above_threshold` to `v <= max_error`; when the loop runs to
completion `removed_above_threshold` keeps its initial value `False` and
nothing is removed. -/
def remove_above_error_threshold (points : TiePointErrors)
    (maxError maxFraction : ℚ) : TiePointErrors × Bool :=
  match scanStop maxError ((points.length : ℚ) * maxFraction)
      (points.insertionSort (· ≥ ·)) 0 with
  | none => (points, false)
  | some v => (removeSelectedAbove points v, decide (v ≤ maxError))


/-! ## ModelHelpers.convert_unit_to_meters -/

/-- Python str.lower, for the ASCII unit names used by the source. -/
def pyLower (s : PyStr) : PyStr := s.map Char.toLower


/-- ModelHelpers.convert_unit_to_meters (lines 43-61).  Lowercases the unit
and scales the value: centimeters by 0.01, millimeters by 0.001,
kilometers by 100.0 (the factor implemented in the source), anything else
by 1.0. -/
def convert_unit_to_meters (unit : PyStr) (val : ℚ) : ℚ :=
  let u := pyLower unit
  if u = "cm".toList then val * (1/100)
  else if u = "mm".toList then val * (1/1000)
  else if u = "km".toList then val * 100
  else val * 1


/-! ## processingTools.ptsToClockwiseRect

`ptsToClockwiseRect` (processingTools.py lines 6-19) receives a numpy array
of four (x, y) points, embedded here as a list of rational pairs.  The
source computes `s = pts.sum(axis=1)` (the per-point value x + y) and
`d = np.diff(pts, axis=1)` (the per-point value y - x), then fills
`rect[0] = pts[np.argmin(s)]`, `rect[2] = pts[np.argmax(s)]`,
`rect[1] = pts[np.argmin(d)]`, `rect[3] = pts[np.argmax(d)]` and returns
`rect` in the order [rect0, rect1, rect2, rect3]. -/

/-- Accumulator loop of np.argmin: the pair (best index, best value) so
far; a later value replaces the best only when strictly smaller, so the
first occurrence of the minimum wins, as in numpy. -/
def argminAux : List ℚ → ℕ → ℕ × ℚ → ℕ × ℚ
  | [], _, acc => acc
  | x :: xs, i, (bi, bv) =>
      if x < bv then argminAux xs (i + 1) (i, x)
      else argminAux xs (i + 1) (bi, bv)


/-- np.argmin over a list of rationals: index of the first occurrence of
the minimal value (0 on the empty list, a case numpy rejects). -/
def argminIdx : List ℚ → ℕ
  | [] => 0
  | x :: xs => (argminAux xs 1 (0, x)).1


/-- Accumulator loop of np.argmax, dual to `argminAux`. -/
def argmaxAux : List ℚ → ℕ → ℕ × ℚ → ℕ × ℚ
  | [], _, acc => acc
  | x :: xs, i, (bi, bv) =>
      if bv < x then argmaxAux xs (i + 1) (i, x)
      else argmaxAux xs (i + 1) (bi, bv)


/-- np.argmax over a list of rationals: index of the first occurrence of
the maximal value. -/
def argmaxIdx : List ℚ → ℕ
  | [] => 0
  | x :: xs => (argmaxAux xs 1 (0, x)).1


/-- processingTools.ptsToClockwiseRect: order four points as
[top-left, top-right, bottom-right, bottom-left] using argmin/argmax of
the coordinate sum x + y and the coordinate difference y - x. -/
def ptsToClockwiseRect (pts : List (ℚ × ℚ)) : List (ℚ × ℚ) :=
  [pts.getD (argminIdx (pts.map (fun p => p.1 + p.2))) (0, 0),
   pts.getD (argminIdx (pts.map (fun p => p.2 - p.1))) (0, 0),
   pts.getD (argmaxIdx (pts.map (fun p => p.1 + p.2))) (0, 0),
   pts.getD (argmaxIdx (pts.map (fun p => p.2 - p.1))) (0, 0)]


/-! ## ModelHelpers.build_scalebars_from_list

Markers and scalebars of a Metashape chunk.  Python compares marker
objects by identity; inside one chunk detected markers carry distinct
labels, so a marker is represented by its label. -/

/-- A Metashape marker, identified by its label (detected targets are
labeled "target N"). -/
structure Marker where
  label : PyStr
deriving DecidableEq


/-- A Metashape scalebar: two endpoint markers and the reference fields the
builder assigns. -/
structure Scalebar where
  point0 : Marker
  point1 : Marker
  distance : ℚ
  accuracy : ℚ
  enabled : Bool
deriving DecidableEq


/-- The part of the chunk state that build_scalebars_from_list reads and
writes: its markers and scalebars.  The accuracy priors of
set_chunk_accuracy and the final chunk.updateTransform engine call touch
no state observed here. -/
structure SBChunk where
  markers : List Marker
  scalebars : List Scalebar
deriving DecidableEq


/-- One entry of a "bars" list in MarkerPalettes.json: the two target
indices, the distance and its unit. -/
structure ScalebarDef where
  p0 : ℕ
  p1 : ℕ
  distance : ℚ
  units : PyStr


/-- The Python formatted names of the two endpoints, target followed by a
blank and the point index (source lines 79-80). -/
def pyFormatTarget (n : ℕ) : PyStr := ("target " ++ toString n).toList


/-- The marker search loop (lines 81-88): scan the chunk markers once;
the first marker whose label equals name1 becomes marker1, otherwise
(elif) the first whose label equals name2 becomes marker2; the loop breaks
as soon as both are found. -/
def findMarkerPairLoop : List Marker → PyStr → PyStr →
    Option Marker → Option Marker → Option Marker × Option Marker
  | [], _, _, m1, m2 => (m1, m2)
  | m :: rest, n1, n2, m1, m2 =>
      let m1' := if m.label = n1 then some m else m1
      let m2' := if m.label ≠ n1 ∧ m.label = n2 then some m else m2
      if m1'.isSome ∧ m2'.isSome then (m1', m2')
      else findMarkerPairLoop rest n1 n2 m1' m2'


/-- The existing-scalebar search (lines 92-95), with the condition exactly
as written in the source (line 93): the first disjunction tests
point0 == marker1 twice (instead of testing point1 against marker1), so a
bar stored as (marker2, marker1) is not recognized.  Returns the index of
the first matching bar. -/
def findExistingBarIdx : List Scalebar → Marker → Marker → ℕ → Option ℕ
  | [], _, _, _ => none
  | b :: rest, m1, m2, i =>
      if (b.point0 = m1 ∨ b.point0 = m1) ∧ (b.point0 = m2 ∨ b.point1 = m2) then
        some i
      else findExistingBarIdx rest m1 m2 (i + 1)


/-- Set the reference fields of a scalebar (lines 98-100): the distance
converted to meters, accuracy 1.0e-5, enabled. -/
def setScalebarReference (b : Scalebar) (dist : ℚ) : Scalebar :=
  { b with distance := dist, accuracy := 1/100000, enabled := true }


/-- Body of the `for definition in scalebardefinitions` loop of
build_scalebars_from_list (lines 78-100).  Modelled from the spec where
the engine is concerned: `chunk.addScalebar(marker1, marker2)` appends a
new scale constraint with endpoints (marker1, marker2) to the chunk. -/
def processScalebarDef (chunk : SBChunk) (d : ScalebarDef) : SBChunk :=
  let name1 := pyFormatTarget d.p0
  let name2 := pyFormatTarget d.p1
  let found := findMarkerPairLoop chunk.markers name1 name2 none none
  match found.1, found.2 with
  | some m1, some m2 =>
      let dist := convert_unit_to_meters d.units d.distance
      match findExistingBarIdx chunk.scalebars m1 m2 0 with
      | some i =>
          { chunk with
              scalebars := chunk.scalebars.set i
                (setScalebarReference
                  (chunk.scalebars.getD i ⟨⟨[]⟩, ⟨[]⟩, 0, 0, false⟩) dist) }
      | none =>
          { chunk with
              scalebars := chunk.scalebars ++
                [setScalebarReference ⟨m1, m2, 0, 0, false⟩ dist] }
  | _, _ => chunk


/-- ModelHelpers.build_scalebars_from_list (lines 63-101): process every
definition in order. -/
def build_scalebars_from_list (chunk : SBChunk) (defs : List ScalebarDef) :
    SBChunk :=
  defs.foldl processScalebarDef chunk


/-! ## ModelHelpers.find_axes_from_markers and MetashapeTools.reorient_model -/

/-- A Metashape 3-vector over the rationals. -/
structure Vec3 where
  x : ℚ
  y : ℚ
  z : ℚ
deriving DecidableEq


/-- Componentwise vector difference, as used for xaxis[1]-xaxis[0]. -/
def vsub (a b : Vec3) : Vec3 := ⟨a.x - b.x, a.y - b.y, a.z - b.z⟩


/-- Metashape.Vector.cross. -/
def cross (a b : Vec3) : Vec3 :=
  ⟨a.y * b.z - a.z * b.y, a.z * b.x - a.x * b.z, a.x * b.y - a.y * b.x⟩


/-- A marker as consumed by find_axes_from_markers: the numeric index that
`(int)(m.label.split()[1])` parses from the label, and the triangulated
position. -/
structure AxMarker where
  idx : ℕ
  position : Vec3
deriving DecidableEq


/-- The axes table of one palette in MarkerPalettes.json. -/
structure PaletteAxes where
  xpos : List ℕ
  xneg : List ℕ
  zpos : List ℕ
  zneg : List ℕ


/-- The chunk state read by find_axes_from_markers: its markers. -/
structure AxChunk where
  markers : List AxMarker


/-- Python exceptions raised by the modelled fragments. -/
inductive PyErr
  | typeError
  | indexError
deriving DecidableEq


/-- The marker bucketing loop of find_axes_from_markers (lines 261-268):
append the position to the x bucket when the parsed index is in xpos or
xneg, else (elif) to the z bucket when it is in zpos or zneg; break once
both buckets hold at least two entries. -/
def bucketAxisMarkers (pal : PaletteAxes) :
    List AxMarker → List Vec3 → List Vec3 → List Vec3 × List Vec3
  | [], xa, za => (xa, za)
  | m :: rest, xa, za =>
      let isX := m.idx ∈ pal.xpos ∨ m.idx ∈ pal.xneg
      let xa' := if isX then xa ++ [m.position] else xa
      let za' :=
        if ¬isX ∧ (m.idx ∈ pal.zpos ∨ m.idx ∈ pal.zneg) then za ++ [m.position]
        else za
      if 2 ≤ xa'.length ∧ 2 ≤ za'.length then (xa', za')
      else bucketAxisMarkers pal rest xa' za'

/-- ModelHelpers.find_axes_from_markers (lines 245-275).  With no markers
on the chunk the source prints a message and executes a bare `return`,
producing Python None, modelled as `Except.ok none`.  Otherwise it buckets
the marker positions, forms ux = xaxis[1]-xaxis[0] and
uz = zaxis[1]-zaxis[0] (an IndexError when a bucket holds fewer than two
positions), yaxis = cross(uz, ux), normalizes all three and returns
[ux, yaxis, uz].  Metashape.Vector.normalize divides by a square root with
no rational embedding, so it is supplied as the parameter normF (no
theorem below depends on it); the load_palettes file lookup is supplied as
the already-loaded palette. -/
def find_axes_from_markers (normF : Vec3 → Vec3) (pal : PaletteAxes)
    (chunk : AxChunk) : Except PyErr (Option (List Vec3)) :=
  if chunk.markers = [] then Except.ok none
  else
    match bucketAxisMarkers pal chunk.markers [] [] with
    | (x0 :: x1 :: _, z0 :: z1 :: _) =>
        let ux := vsub x1 x0
        let uz := vsub z1 z0
        let yaxis := cross uz ux
        Except.ok (some [normF ux, normF yaxis, normF uz])
    | _ => Except.error PyErr.indexError


/-- The engine operations reorient_model can perform. -/
inductive ReorientAction
  | warnNoAxes
  | alignMarkersToAxes
  | moveModelToWorldOrigin
deriving DecidableEq


/-- MetashapeTools.reorient_model (lines 200-217): compute
axes = find_axes_from_markers(chunk, palette), then branch on
`len(axes) == 0`.  When find_axes_from_markers produced None (its
no-marker path), `len(None)` raises TypeError.  When a list came back, a
length of 0 logs a warning and returns; otherwise align_markers_to_axes
and move_model_to_world_origin run.  The value is the list of engine
actions performed. -/
def reorient_model (normF : Vec3 → Vec3) (pal : PaletteAxes) (chunk : AxChunk) :
    Except PyErr (List ReorientAction) :=
  match find_axes_from_markers normF pal chunk with
  | Except.error e => Except.error e
  | Except.ok none => Except.error PyErr.typeError
  | Except.ok (some axes) =>
      if axes.length = 0 then Except.ok [ReorientAction.warnNoAxes]
      else
        Except.ok [ReorientAction.alignMarkersToAxes,
          ReorientAction.moveModelToWorldOrigin]


/-! ## util.MaskingOptions and image_processing.build_masks -/

/-- The attribute table of class util.util.MaskingOptions (util.py lines
6-12): NOMASKS = 0, MASK_CONTEXT_AWARE_DROPLET = 1,
MASK_MAGIC_WAND_DROPLET = 2, MASK_CANNY = 3, MASK_THRESHOLDING = 4.
Python resolves attribute access through this table; a name that is absent
raises AttributeError. -/
def MaskingOptionsAttr (name : PyStr) : Option ℕ :=
  if name = "NOMASKS".toList then some 0
  else if name = "MASK_CONTEXT_AWARE_DROPLET".toList then some 1
  else if name = "MASK_MAGIC_WAND_DROPLET".toList then some 2
  else if name = "MASK_CANNY".toList then some 3
  else if name = "MASK_THRESHOLDING".toList then some 4
  else none


/-- The one action build_masks can dispatch to. -/
inductive MaskAction
  | buildMasksWithDroplet
deriving DecidableEq


/-- Python exceptions of the attribute system. -/
inductive PyAttrErr
  | attributeError
deriving DecidableEq


/-- processing.image_processing.build_masks (lines 89-91): evaluate
util.MaskingOptions.MASK_DROPLET, compare it with mode, and call
build_masks_with_droplet on equality.  The attribute access happens before
any comparison, for every mode. -/
def build_masks (mode : ℕ) : Except PyAttrErr (List MaskAction) :=
  match MaskingOptionsAttr "MASK_DROPLET".toList with
  | none => Except.error PyAttrErr.attributeError
  | some v =>
      if mode = v then Except.ok [MaskAction.buildMasksWithDroplet]
      else Except.ok []


/-! ## image_processing.process_image -/

/-- Python str.upper for ASCII path characters. -/
def pyUpper (s : PyStr) : PyStr := s.map Char.toUpper


/-- Python str.endswith: the suffix test. -/
def pyEndsWith (s suffix : PyStr) : Bool :=
  if suffix.length ≤ s.length then
    decide (s.drop (s.length - suffix.length) = suffix)
  else false


/-- The final path component, as used by pathlib for the stem. -/
def lastComponent (p : PyStr) : PyStr :=
  (p.reverse.takeWhile (fun c => c ≠ '/')).reverse


/-- pathlib.Path(p).stem: the final component without its last suffix; a
name whose only dot is the leading one keeps it. -/
def pathStem (p : PyStr) : PyStr :=
  let base := lastComponent p
  let extLen := (base.reverse.takeWhile (fun c => c ≠ '.')).length
  if extLen = base.length then base
  else
    let cand := base.take (base.length - extLen - 1)
    if cand = [] then base else cand


/-- image_processing.convertToJPG (lines 265-288): decode (RAW or PIL) and
re-encode; the returned value is os.path.join(output, stem), the saved
file adding the .jpg suffix.  The pixel decoding side effects are not
modelled. -/
def convertToJPG (input output : PyStr) : PyStr :=
  output ++ "/".toList ++ pathStem input


/-- image_processing.convert_CR2_to_TIF (lines 241-263): returns
os.path.join(output, stem + ".tif"); decoding side effects are not
modelled. -/
def convert_CR2_to_TIF (input output : PyStr) : PyStr :=
  output ++ "/".toList ++ pathStem input ++ ".tif".toList


/-- image_processing.process_image (lines 132-158), the routing logic.
processedpath starts empty; when the uppercased path does not already end
with the uppercased Destination_Type, a path whose uppercase form ends in
CR2 is converted to TIF or JPG according to Destination_Type, and
otherwise a path whose uppercase form ends in TIF is converted to JPG;
any other source returns the initial empty string. -/
def process_image (filepath output destType : PyStr) : PyStr :=
  if !(pyEndsWith (pyUpper filepath) (pyUpper destType)) then
    if pyEndsWith (pyUpper filepath) "CR2".toList then
      if pyUpper destType = ".TIF".toList then convert_CR2_to_TIF filepath output
      else if pyUpper destType = ".JPG".toList then convertToJPG filepath output
      else []
    else if pyEndsWith (pyUpper filepath) "TIF".toList then
      if pyUpper destType = ".JPG".toList then convertToJPG filepath output
      else []
    else []
  else []


/-! ## image_processing.get_exif_data

The PIL environment is external to the repository and is modelled from the
spec: ExifTags.IFD supplies the codes that denote nested
Image-File-Directory pointers (in PIL these are IFD1, Exif, GPSInfo,
Makernote = 0x927C and Interop), ExifTags.TAGS and ExifTags.GPSTAGS map
numeric codes to names, and get_ifd returns the entries of a nested
block.  A Python dict key is either a string (a resolved name) or the
original integer code; tag values are abstract, represented by naturals.
The source iterates exif.items() of the mapping returned by getexif()
while assigning into the same mapping; iteration is modelled over the
snapshot of the initial items, which is also the initial state of the
returned mapping. -/

/-- A key of the returned mapping: a resolved tag name or a raw code. -/
abbrev TagKey := PyStr ⊕ ℕ


/-- The PIL environment consumed by get_exif_data. -/
structure ExifEnv where
  ifdCodes : List ℕ
  tags : ℕ → Option PyStr
  gpstags : ℕ → Option PyStr
  getIfd : ℕ → List (ℕ × ℕ)


/-- Python dict assignment `d[k] = v`: replace the binding in place or
append a new one. -/
def dictSet : List (TagKey × ℕ) → TagKey → ℕ → List (TagKey × ℕ)
  | [], k, v => [(k, v)]
  | (k0, v0) :: rest, k, v =>
      if k0 = k then (k, v) :: rest else (k0, v0) :: dictSet rest k v


/-- Python dict lookup. -/
def dictGet (d : List (TagKey × ℕ)) (k : TagKey) : Option ℕ :=
  (d.find? (fun p => decide (p.1 = k))).map Prod.snd


/-- The name of a nested tag (line 232):
`ExifTags.GPSTAGS.get(nk, None) or ExifTags.TAGS.get(nk, None) or nk`;
the name tables never hold empty strings, so Python truthiness reduces to
presence. -/
def nestedTagName (env : ExifEnv) (nk : ℕ) : TagKey :=
  match env.gpstags nk with
  | some s => Sum.inl s
  | none =>
      match env.tags nk with
      | some s => Sum.inl s
      | none => Sum.inr nk


/-- The name of a non-IFD top-level tag (line 237):
`ExifTags.TAGS.get(code, code)`. -/
def topTagName (env : ExifEnv) (code : ℕ) : TagKey :=
  match env.tags code with
  | some s => Sum.inl s
  | none => Sum.inr code


/-- One step of the nested flattening loop (lines 231-235): skip the two
noisy tag names MakerNote and UserComment, otherwise assign the value
under the resolved name. -/
def flattenIfdEntry (env : ExifEnv) (d : List (TagKey × ℕ)) (p : ℕ × ℕ) :
    List (TagKey × ℕ) :=
  let nested := nestedTagName env p.1
  if nested = Sum.inl "MakerNote".toList ∨
      nested = Sum.inl "UserComment".toList then d
  else dictSet d nested p.2


/-- One step of the outer loop of get_exif_data (lines 227-238): an IFD
pointer code has its nested entries flattened into the mapping (the local
propname is computed and never used in the source); any other code is
assigned under its resolved top-level name. -/
def processExifEntry (env : ExifEnv) (d : List (TagKey × ℕ)) (code val : ℕ) :
    List (TagKey × ℕ) :=
  if code ∈ env.ifdCodes then
    (env.getIfd code).foldl (flattenIfdEntry env) d
  else dictSet d (topTagName env code) val


/-- image_processing.get_exif_data (lines 210-239): starting from the
mapping produced by getexif() (integer codes), process every top-level
entry. -/
def get_exif_data (env : ExifEnv) (items : List (ℕ × ℕ)) :
    List (TagKey × ℕ) :=
  items.foldl (fun d p => processExifEntry env d p.1 p.2)
    (items.map (fun p => (Sum.inr p.1, p.2)))


/-! ## MetashapeTools.build_basic_model

The orchestrator (MetashapeTools.py lines 52-197) is embedded as a
function from the persisted project state to the updated state together
with the trace of engine operations performed.  A chunk is reduced to the
artifact-presence flags the stage guards test; engine calls set the flag
of the artifact they produce.  Saves, logging, statistics and directory
creation have no bearing on the claims and are not recorded.  Engine
behaviour the repository only invokes is modelled from the spec:
load_photos registers the photo files of the configured directory (the
chunk then has cameras), matchPhotos/alignCameras produce the sparse
cloud, buildDepthMaps/buildModel produce the mesh, buildUV/buildTexture
produce the texture, and chunk.copy with depth-map and model data carries
the mesh together with its texture.  ModelHelpers.close_holes and
ModelHelpers.get_export_filename are called by the orchestrator but are
absent from the provided sources; close_holes is modelled from the spec as
the engine native hole-filling call (an action with no flag), and
get_export_filename as pure name computation with no engine action. -/

/-- The artifact-presence flags of a chunk that the stage guards read. -/
structure MChunk where
  cameras : Bool
  point_cloud : Bool
  markers : Bool
  scalebars : Bool
  model : Bool
  textures : Bool
deriving DecidableEq


/-- A persisted project document: its chunk list. -/
structure MDoc where
  chunks : List MChunk
deriving DecidableEq


/-- The palette configuration the orchestrator reads: whether the palette
defines scalebars and whether their type is "explicit" (else
"sequential"). -/
structure BPalette where
  hasScalebarsDef : Bool
  scalebarsExplicit : Bool
deriving DecidableEq


/-- The configuration slice build_basic_model reads: the palette (none
when the config has no palette key or it is "None") and the export_as
string. -/
structure BConfig where
  palette : Option BPalette
  exportAs : PyStr


/-- The engine operations build_basic_model can perform. -/
inductive BAction
  | addChunk
  | loadPhotos
  | loadMasks
  | matchPhotos
  | alignCameras
  | detectMarkers
  | refineSparseCloud
  | buildDepthMaps
  | buildModel
  | buildScalebarsList
  | buildScalebarsSeq
  | cleanupBlobs
  | closeHoles
  | copyChunkDecimate
  | buildUV
  | buildTexture
  | reorientModel
  | exportModel
deriving DecidableEq


/-- A chunk with no artifacts, as addChunk creates it. -/
def freshChunk : MChunk := ⟨false, false, false, false, false, false⟩


/-- Stage 3 (lines 93-95): when the chunk has no cameras, load photos and
masks. -/
def stagePhotos (c : MChunk) : MChunk × List BAction :=
  if c.cameras = false then
    ({ c with cameras := true }, [BAction.loadPhotos, BAction.loadMasks])
  else (c, [])


/-- Stage 4 (lines 99-111): when no sparse cloud exists, match photos and
align cameras. -/
def stageMatch (c : MChunk) : MChunk × List BAction :=
  if c.point_cloud = false then
    ({ c with point_cloud := true }, [BAction.matchPhotos, BAction.alignCameras])
  else (c, [])


/-- Stage 5 (lines 113-117): with a palette configured and no markers,
detect markers. -/
def stageMarkers (pal : Option BPalette) (c : MChunk) : MChunk × List BAction :=
  match pal with
  | some _ =>
      if c.markers = false then ({ c with markers := true }, [BAction.detectMarkers])
      else (c, [])
  | none => (c, [])


/-- Stage 6 (lines 118-121): with a sparse cloud and no mesh, refine the
sparse cloud (tie points are removed; no artifact flag changes). -/
def stageRefine (c : MChunk) : MChunk × List BAction :=
  if c.point_cloud = true ∧ c.model = false then (c, [BAction.refineSparseCloud])
  else (c, [])


/-- Stage 7 (lines 124-137): when no mesh exists, build depth maps and the
model. -/
def stageBuildModel (c : MChunk) : MChunk × List BAction :=
  if c.model = false then
    ({ c with model := true }, [BAction.buildDepthMaps, BAction.buildModel])
  else (c, [])


/-- Stage 8 (lines 139-146): with a palette that defines scalebars and a
chunk without scalebars, build them by the declared method. -/
def stageScalebars (pal : Option BPalette) (c : MChunk) : MChunk × List BAction :=
  match pal with
  | some p =>
      if p.hasScalebarsDef = true ∧ c.scalebars = false then
        ({ c with scalebars := true },
          [if p.scalebarsExplicit then BAction.buildScalebarsList
           else BAction.buildScalebarsSeq])
      else (c, [])
  | none => (c, [])


/-- Stage 11 (lines 162-167): a chunk lacking a texture gets a UV atlas
and a texture baked. -/
def stageTexture (c : MChunk) : MChunk × List BAction :=
  if c.textures = false then
    ({ c with textures := true }, [BAction.buildUV, BAction.buildTexture])
  else (c, [])


/-- Stage 12 per chunk (lines 169-187): reorient when a palette is
configured, then export per export_as ("none" skips, "all" writes .ply and
.obj, any other value writes that one format). -/
def exportActions (exportAs : PyStr) : List BAction :=
  if exportAs = "none".toList then []
  else if exportAs = "all".toList then [BAction.exportModel, BAction.exportModel]
  else [BAction.exportModel]


/-- The per-chunk actions of stage 12. -/
def reorientExportActions (cfg : BConfig) : List BAction :=
  (match cfg.palette with
   | some _ => [BAction.reorientModel]
   | none => []) ++ exportActions cfg.exportAs


/-- MetashapeTools.build_basic_model (lines 52-197): ensure a chunk exists
(stage 2), run the guarded stages 3-8 on the first chunk, always clean up
blobs and close holes (stage 9), duplicate and decimate when decimation is
requested and fewer than two chunks exist (stage 10), texture every chunk
lacking a texture (stage 11), and reorient/export every chunk
(stage 12). -/
def build_basic_model (doc : MDoc) (cfg : BConfig) (decimate : Bool) :
    MDoc × List BAction :=
  let chunks0 := if doc.chunks.isEmpty then [freshChunk] else doc.chunks
  let tA : List BAction := if doc.chunks.isEmpty then [BAction.addChunk] else []
  let c0 := chunks0.headD freshChunk
  let rest := chunks0.tail
  let s1 := stagePhotos c0
  let s2 := stageMatch s1.1
  let s3 := stageMarkers cfg.palette s2.1
  let s4 := stageRefine s3.1
  let s5 := stageBuildModel s4.1
  let s6 := stageScalebars cfg.palette s5.1
  let tH : List BAction := [BAction.cleanupBlobs, BAction.closeHoles]
  let doDec := decimate = true ∧ (s6.1 :: rest).length < 2
  let chunks1 := if doDec then s6.1 :: rest ++ [s6.1] else s6.1 :: rest
  let tI : List BAction := if doDec then [BAction.copyChunkDecimate] else []
  let texed := chunks1.map stageTexture
  let chunks2 := texed.map Prod.fst
  let tJ := (texed.map Prod.snd).flatten
  let tK := (chunks2.map (fun _ => reorientExportActions cfg)).flatten
  (⟨chunks2⟩,
    tA ++ s1.2 ++ s2.2 ++ s3.2 ++ s4.2 ++ s5.2 ++ s6.2 ++ tH ++ tI ++ tJ ++ tK)

/-! ## Theorems -/


/-- Evaluation helper: the budget product supplied as a precomputed
literal. -/
theorem remove_above_eval (points : TiePointErrors)
    (maxError maxFraction maxRemoval : ℚ)
    (h : ((points.length : ℚ)) * maxFraction = maxRemoval) :
    remove_above_error_threshold points maxError maxFraction =
      match scanStop maxError maxRemoval (points.insertionSort (· ≥ ·)) 0 with
      | none => (points, false)
      | some v => (removeSelectedAbove points v, decide (v ≤ maxError)) := by
  unfold remove_above_error_threshold
  rw [h]


/-- If the scan loop ran to completion, every scanned value exceeded
`maxError`. -/
theorem scanStop_eq_none (maxError maxRemoval : ℚ) :
    ∀ (l : List ℚ) (i : ℕ), scanStop maxError maxRemoval l i = none →
      ∀ v ∈ l, maxError < v := by
  intro l
  induction l with
  | nil => intro i _ v hv; cases hv
  | cons x rest ih =>
      intro i h v hv
      by_cases hc : maxError < x ∧ (((i + 1 : ℕ) : ℚ)) ≤ maxRemoval
      · rw [scanStop, if_pos hc] at h
        rcases List.mem_cons.mp hv with hvx | hvr
        · exact hvx ▸ hc.1
        · exact ih (i + 1) h v hvr
      · rw [scanStop, if_neg hc] at h
        cases h


/-- The value at which the scan loop breaks is one of the scanned values. -/
theorem scanStop_eq_some (maxError maxRemoval : ℚ) :
    ∀ (l : List ℚ) (i : ℕ) (v : ℚ), scanStop maxError maxRemoval l i = some v →
      v ∈ l := by
  intro l
  induction l with
  | nil => intro i v h; cases h
  | cons x rest ih =>
      intro i v h
      by_cases hc : maxError < x ∧ (((i + 1 : ℕ) : ℚ)) ≤ maxRemoval
      · rw [scanStop, if_pos hc] at h
        exact List.mem_cons_of_mem x (ih (i + 1) v h)
      · rw [scanStop, if_neg hc] at h
        exact List.mem_cons.mpr (Or.inl (Option.some.inj h).symm)


/-- If every value exceeds `maxError` and the index budget covers the whole
remainder of the list, the scan loop runs to completion. -/
theorem scanStop_complete (maxError maxRemoval : ℚ) :
    ∀ (l : List ℚ) (i : ℕ), (∀ v ∈ l, maxError < v) →
      ((i : ℚ) + (l.length : ℚ)) ≤ maxRemoval →
      scanStop maxError maxRemoval l i = none := by
  intro l
  induction l with
  | nil => intro i _ _; rfl
  | cons x rest ih =>
      intro i hall hlen
      have hx : maxError < x := hall x (List.mem_cons_self x rest)
      have hlc : ((x :: rest).length : ℚ) = (rest.length : ℚ) + 1 := by
        push_cast [List.length_cons]; ring
      have hlen' : (((i + 1 : ℕ) : ℚ)) + (rest.length : ℚ) ≤ maxRemoval := by
        rw [hlc] at hlen; push_cast; linarith
      have hbudget : (((i + 1 : ℕ) : ℚ)) ≤ maxRemoval := by
        have hnn : (0 : ℚ) ≤ (rest.length : ℚ) := by positivity
        linarith
      rw [scanStop, if_pos ⟨hx, hbudget⟩]
      exact ih (i + 1) (fun v hv => hall v (List.mem_cons_of_mem x hv))
        (by push_cast at hlen' ⊢; linarith)


/-- C1: remove_above_error_threshold sorts the per-point error values
descending, scans while the value exceeds maxError and the scan count stays
within maxFraction times the population, deletes every point whose error is
above the stopping value, and returns true exactly when the stop was caused
by the error condition.  Concretely, on a population of 100 points of which
5 exceed maxError = 5, maxFraction = 1/10 removes exactly those 5 points and
returns true, while maxFraction = 1/50 removes exactly the 2 highest-error
points and returns false.  In general, a true result means no violator
remains, and a false result on a nonempty population means a violator
remains. -/
theorem C1_remove_above_error_threshold :
    (remove_above_error_threshold ([10, 9, 8, 7, 6] ++ List.replicate 95 1) 5 (1/10)
      = (List.replicate 95 1, true)) ∧
    (remove_above_error_threshold ([10, 9, 8, 7, 6] ++ List.replicate 95 1) 5 (1/50)
      = (([8, 7, 6] ++ List.replicate 95 1 : List ℚ), false)) ∧
    (∀ (points : TiePointErrors) (maxError maxFraction : ℚ),
      (remove_above_error_threshold points maxError maxFraction).2 = true →
        ∀ e ∈ (remove_above_error_threshold points maxError maxFraction).1,
          e ≤ maxError) ∧
    (∀ (points : TiePointErrors) (maxError maxFraction : ℚ),
      (remove_above_error_threshold points maxError maxFraction).2 = false →
        points ≠ [] →
        ∃ e ∈ (remove_above_error_threshold points maxError maxFraction).1,
          maxError < e) := by
  refine ⟨?_, ?_, ?_, ?_⟩
  · rw [remove_above_eval _ 5 (1/10) 10 (by norm_num)]
    decide
  · rw [remove_above_eval _ 5 (1/50) 2 (by norm_num)]
    decide
  · intro points maxError maxFraction htrue e he
    unfold remove_above_error_threshold at htrue he
    rcases hscan : scanStop maxError ((points.length : ℚ) * maxFraction)
        (points.insertionSort (· ≥ ·)) 0 with _ | v
    · rw [hscan] at htrue; simp at htrue
    · rw [hscan] at htrue he
      simp only [decide_eq_true_eq] at htrue
      have hev : e ≤ v := by
        simpa [removeSelectedAbove] using (List.mem_filter.mp he).2
      exact le_trans hev htrue
  · intro points maxError maxFraction hfalse hne
    unfold remove_above_error_threshold at hfalse ⊢
    rcases hscan : scanStop maxError ((points.length : ℚ) * maxFraction)
        (points.insertionSort (· ≥ ·)) 0 with _ | v
    · rcases List.exists_mem_of_ne_nil points hne with ⟨e, he⟩
      have hmem : e ∈ points.insertionSort (· ≥ ·) :=
        (List.perm_insertionSort (· ≥ ·) points).mem_iff.mpr he
      exact ⟨e, he, scanStop_eq_none _ _ _ 0 hscan e hmem⟩
    · rw [hscan] at hfalse
      have hdec : decide (v ≤ maxError) = false := hfalse
      have hlt : maxError < v := not_le.mp (by simpa using hdec)
      have hv : v ∈ points :=
        (List.perm_insertionSort (· ≥ ·) points).mem_iff.mp
          (scanStop_eq_some _ _ _ 0 v hscan)
      refine ⟨v, ?_, hlt⟩
      show v ∈ removeSelectedAbove points v
      simp [removeSelectedAbove, List.mem_filter, hv]


/-- Witness for C1: the hypothetical conjuncts applied at concrete inputs.
With points [10, 9, 1], maxError 5 and maxFraction 1/3 the budget is one
point, the scan breaks on the second value 9, and the call returns false
with the violator 9 still present; with maxFraction 1 the call removes both
violators and returns true, leaving no violator. -/
theorem C1_witness :
    (∀ e ∈ (remove_above_error_threshold [10, 9, 1] 5 1).1, e ≤ 5) ∧
    (∃ e ∈ (remove_above_error_threshold [10, 9, 1] 5 (1/3)).1, (5 : ℚ) < e) := by
  constructor
  · exact C1_remove_above_error_threshold.2.2.1 [10, 9, 1] 5 1
      (by rw [remove_above_eval _ 5 1 3 (by norm_num)]; decide)
  · exact C1_remove_above_error_threshold.2.2.2 [10, 9, 1] 5 (1/3)
      (by rw [remove_above_eval _ 5 (1/3) 1 (by norm_num)]; decide)
      (by decide)


/-- C9: when every tie point violates the threshold and the removal budget
covers the whole population, the scan loop completes without triggering any
deletion: the point set is unchanged and the function returns false. -/
theorem C9_remove_above_error_threshold_exhaustive
    (points : TiePointErrors) (maxError maxFraction : ℚ)
    (hall : ∀ e ∈ points, maxError < e)
    (hbudget : (points.length : ℚ) ≤ (points.length : ℚ) * maxFraction) :
    remove_above_error_threshold points maxError maxFraction = (points, false) := by
  unfold remove_above_error_threshold
  have hlen : (points.insertionSort (· ≥ ·)).length = points.length :=
    (List.perm_insertionSort (· ≥ ·) points).length_eq
  have hall' : ∀ v ∈ points.insertionSort (· ≥ ·), maxError < v := by
    intro v hv
    exact hall v ((List.perm_insertionSort (· ≥ ·) points).mem_iff.mp hv)
  have hnone : scanStop maxError ((points.length : ℚ) * maxFraction)
      (points.insertionSort (· ≥ ·)) 0 = none := by
    apply scanStop_complete
    · exact hall'
    · rw [hlen]; push_cast; linarith
  rw [hnone]


/-- Witness for C9: three points all above the threshold with a budget
covering all of them; the call leaves the points unchanged and returns
false. -/
theorem C9_witness :
    remove_above_error_threshold [10, 9, 8] 5 1 = ([10, 9, 8], false) :=
  C9_remove_above_error_threshold_exhaustive [10, 9, 8] 5 1 (by decide)
    (by norm_num)


/-- C5: convert_unit_to_meters scales by 1/100 for cm, 1/1000 for mm, 100
for km (the implemented, dimensionally non-standard factor), and returns
any other unit unchanged; in particular 250 cm is 2.5 m, 50 mm is 0.05 m
and 1 km maps to 100. -/
theorem C5_convert_unit_to_meters :
    (∀ v : ℚ, convert_unit_to_meters "cm".toList v = v * (1/100)) ∧
    (∀ v : ℚ, convert_unit_to_meters "mm".toList v = v * (1/1000)) ∧
    (∀ v : ℚ, convert_unit_to_meters "km".toList v = v * 100) ∧
    (∀ (u : PyStr) (v : ℚ), pyLower u ≠ "cm".toList → pyLower u ≠ "mm".toList →
      pyLower u ≠ "km".toList → convert_unit_to_meters u v = v) ∧
    convert_unit_to_meters "cm".toList 250 = 5/2 ∧
    convert_unit_to_meters "mm".toList 50 = 1/20 ∧
    convert_unit_to_meters "km".toList 1 = 100 := by
  have hcm : pyLower "cm".toList = "cm".toList := by decide
  have hmm : pyLower "mm".toList = "mm".toList := by decide
  have hkm : pyLower "km".toList = "km".toList := by decide
  have hne1 : "mm".toList ≠ "cm".toList := by decide
  have hne2 : "km".toList ≠ "cm".toList := by decide
  have hne3 : "km".toList ≠ "mm".toList := by decide
  refine ⟨?_, ?_, ?_, ?_, ?_, ?_, ?_⟩
  · intro v; unfold convert_unit_to_meters; rw [hcm, if_pos rfl]
  · intro v; unfold convert_unit_to_meters; rw [hmm, if_neg hne1, if_pos rfl]
  · intro v
    unfold convert_unit_to_meters
    rw [hkm, if_neg hne2, if_neg hne3, if_pos rfl]
  · intro u v h1 h2 h3
    unfold convert_unit_to_meters
    rw [if_neg h1, if_neg h2, if_neg h3, mul_one]
  · unfold convert_unit_to_meters; rw [hcm, if_pos rfl]; norm_num
  · unfold convert_unit_to_meters; rw [hmm, if_neg hne1, if_pos rfl]; norm_num
  · unfold convert_unit_to_meters
    rw [hkm, if_neg hne2, if_neg hne3, if_pos rfl]
    norm_num


/-- Witness for C5: the unrecognized-unit conjunct applied at the concrete
unit "furlong", whose lowercase form differs from cm, mm and km. -/
theorem C5_witness : convert_unit_to_meters "furlong".toList 7 = 7 :=
  C5_convert_unit_to_meters.2.2.2.1 "furlong".toList 7 (by decide) (by decide)
    (by decide)


/-- getD at an in-bounds index is get. -/
theorem getD_of_lt {α : Type} (l : List α) (d : α) (n : ℕ) (h : n < l.length) :
    l.getD n d = l.get ⟨n, h⟩ := by
  rw [List.getD_eq_getElem?_getD, List.getElem?_eq_getElem h]
  rfl


/-- The argmin accumulator returns either the accumulator or an element of
the remaining list (with its absolute index), and its value is a lower
bound for the accumulator value and all remaining values. -/
theorem argminAux_spec :
    ∀ (xs : List ℚ) (i bi : ℕ) (bv : ℚ),
      (argminAux xs i (bi, bv) = (bi, bv) ∨
        ∃ j, ∃ h : j < xs.length,
          argminAux xs i (bi, bv) = (i + j, xs.get ⟨j, h⟩)) ∧
      (argminAux xs i (bi, bv)).2 ≤ bv ∧
      ∀ x ∈ xs, (argminAux xs i (bi, bv)).2 ≤ x := by
  intro xs
  induction xs with
  | nil =>
      intro i bi bv
      exact ⟨Or.inl rfl, le_refl bv, fun x hx => absurd hx (List.not_mem_nil x)⟩
  | cons x xs ih =>
      intro i bi bv
      by_cases hx : x < bv
      · have h := ih (i + 1) i x
        rw [argminAux, if_pos hx]
        refine ⟨?_, ?_, ?_⟩
        · rcases h.1 with heq | ⟨j, hj, heq⟩
          · refine Or.inr ⟨0, by simp, ?_⟩
            simpa using heq
          · refine Or.inr ⟨j + 1, by simpa using Nat.succ_lt_succ hj, ?_⟩
            rw [heq]
            simp only [Prod.mk.injEq]
            exact ⟨by omega, by simp⟩
        · exact le_trans h.2.1 (le_of_lt hx)
        · intro y hy
          rcases List.mem_cons.mp hy with rfl | hy2
          · exact h.2.1
          · exact h.2.2 y hy2
      · have h := ih (i + 1) bi bv
        rw [argminAux, if_neg hx]
        refine ⟨?_, h.2.1, ?_⟩
        · rcases h.1 with heq | ⟨j, hj, heq⟩
          · exact Or.inl heq
          · refine Or.inr ⟨j + 1, by simpa using Nat.succ_lt_succ hj, ?_⟩
            rw [heq]
            simp only [Prod.mk.injEq]
            exact ⟨by omega, by simp⟩
        · intro y hy
          rcases List.mem_cons.mp hy with rfl | hy2
          · exact le_trans h.2.1 (le_of_not_lt hx)
          · exact h.2.2 y hy2


/-- The argmax accumulator, dual statement. -/
theorem argmaxAux_spec :
    ∀ (xs : List ℚ) (i bi : ℕ) (bv : ℚ),
      (argmaxAux xs i (bi, bv) = (bi, bv) ∨
        ∃ j, ∃ h : j < xs.length,
          argmaxAux xs i (bi, bv) = (i + j, xs.get ⟨j, h⟩)) ∧
      bv ≤ (argmaxAux xs i (bi, bv)).2 ∧
      ∀ x ∈ xs, x ≤ (argmaxAux xs i (bi, bv)).2 := by
  intro xs
  induction xs with
  | nil =>
      intro i bi bv
      exact ⟨Or.inl rfl, le_refl bv, fun x hx => absurd hx (List.not_mem_nil x)⟩
  | cons x xs ih =>
      intro i bi bv
      by_cases hx : bv < x
      · have h := ih (i + 1) i x
        rw [argmaxAux, if_pos hx]
        refine ⟨?_, ?_, ?_⟩
        · rcases h.1 with heq | ⟨j, hj, heq⟩
          · refine Or.inr ⟨0, by simp, ?_⟩
            simpa using heq
          · refine Or.inr ⟨j + 1, by simpa using Nat.succ_lt_succ hj, ?_⟩
            rw [heq]
            simp only [Prod.mk.injEq]
            exact ⟨by omega, by simp⟩
        · exact le_trans (le_of_lt hx) h.2.1
        · intro y hy
          rcases List.mem_cons.mp hy with rfl | hy2
          · exact h.2.1
          · exact h.2.2 y hy2
      · have h := ih (i + 1) bi bv
        rw [argmaxAux, if_neg hx]
        refine ⟨?_, h.2.1, ?_⟩
        · rcases h.1 with heq | ⟨j, hj, heq⟩
          · exact Or.inl heq
          · refine Or.inr ⟨j + 1, by simpa using Nat.succ_lt_succ hj, ?_⟩
            rw [heq]
            simp only [Prod.mk.injEq]
            exact ⟨by omega, by simp⟩
        · intro y hy
          rcases List.mem_cons.mp hy with rfl | hy2
          · exact le_trans (le_of_not_lt hx) h.2.1
          · exact h.2.2 y hy2


/-- On a nonempty list, argminIdx is in bounds and the value there is a
minimum of the list. -/
theorem argminIdx_spec (x : ℚ) (xs : List ℚ) :
    ∃ h : argminIdx (x :: xs) < (x :: xs).length,
      ∀ y ∈ x :: xs, (x :: xs).get ⟨argminIdx (x :: xs), h⟩ ≤ y := by
  have h := argminAux_spec xs 1 0 x
  rcases h.1 with heq | ⟨j, hj, heq⟩
  · refine ⟨by simp [argminIdx, heq], ?_⟩
    intro y hy
    have hval : (x :: xs).get ⟨argminIdx (x :: xs), by simp [argminIdx, heq]⟩
        = (argminAux xs 1 (0, x)).2 := by
      simp [argminIdx, heq]
    rw [hval]
    rcases List.mem_cons.mp hy with rfl | hy2
    · exact h.2.1
    · exact h.2.2 y hy2
  · have hidx : argminIdx (x :: xs) = j + 1 := by
      simp [argminIdx, heq]; omega
    refine ⟨by simp [hidx]; omega, ?_⟩
    intro y hy
    have hval : (x :: xs).get ⟨argminIdx (x :: xs), by simp [hidx]; omega⟩
        = (argminAux xs 1 (0, x)).2 := by
      have : (x :: xs).get ⟨j + 1, by simp; omega⟩ = xs.get ⟨j, hj⟩ := by simp
      rw [heq]
      simp only [hidx]
      simpa using this
    rw [hval]
    rcases List.mem_cons.mp hy with rfl | hy2
    · exact h.2.1
    · exact h.2.2 y hy2


/-- On a nonempty list, argmaxIdx is in bounds and the value there is a
maximum of the list. -/
theorem argmaxIdx_spec (x : ℚ) (xs : List ℚ) :
    ∃ h : argmaxIdx (x :: xs) < (x :: xs).length,
      ∀ y ∈ x :: xs, y ≤ (x :: xs).get ⟨argmaxIdx (x :: xs), h⟩ := by
  have h := argmaxAux_spec xs 1 0 x
  rcases h.1 with heq | ⟨j, hj, heq⟩
  · refine ⟨by simp [argmaxIdx, heq], ?_⟩
    intro y hy
    have hval : (x :: xs).get ⟨argmaxIdx (x :: xs), by simp [argmaxIdx, heq]⟩
        = (argmaxAux xs 1 (0, x)).2 := by
      simp [argmaxIdx, heq]
    rw [hval]
    rcases List.mem_cons.mp hy with rfl | hy2
    · exact h.2.1
    · exact h.2.2 y hy2
  · have hidx : argmaxIdx (x :: xs) = j + 1 := by
      simp [argmaxIdx, heq]; omega
    refine ⟨by simp [hidx]; omega, ?_⟩
    intro y hy
    have hval : (x :: xs).get ⟨argmaxIdx (x :: xs), by simp [hidx]; omega⟩
        = (argmaxAux xs 1 (0, x)).2 := by
      have : (x :: xs).get ⟨j + 1, by simp; omega⟩ = xs.get ⟨j, hj⟩ := by simp
      rw [heq]
      simp only [hidx]
      simpa using this
    rw [hval]
    rcases List.mem_cons.mp hy with rfl | hy2
    · exact h.2.1
    · exact h.2.2 y hy2


/-- argminIdx on a nonempty list: in bounds, and the value there is a
minimum. -/
theorem argminIdx_min (l : List ℚ) (hne : l ≠ []) :
    ∃ h : argminIdx l < l.length, ∀ y ∈ l, l.get ⟨argminIdx l, h⟩ ≤ y := by
  rcases l with _ | ⟨x, xs⟩
  · exact absurd rfl hne
  · exact argminIdx_spec x xs


/-- argmaxIdx on a nonempty list: in bounds, and the value there is a
maximum. -/
theorem argmaxIdx_max (l : List ℚ) (hne : l ≠ []) :
    ∃ h : argmaxIdx l < l.length, ∀ y ∈ l, y ≤ l.get ⟨argmaxIdx l, h⟩ := by
  rcases l with _ | ⟨x, xs⟩
  · exact absurd rfl hne
  · exact argmaxIdx_spec x xs


/-- If `a` is the unique strict minimizer of `f` over `pts`, then the point
selected by argmin of the mapped values is `a`. -/
theorem getD_argminIdx_map {pts : List (ℚ × ℚ)} {f : ℚ × ℚ → ℚ}
    {a : ℚ × ℚ} (d : ℚ × ℚ) (ha : a ∈ pts)
    (hmin : ∀ b ∈ pts, b ≠ a → f a < f b) :
    pts.getD (argminIdx (pts.map f)) d = a := by
  have hne : pts.map f ≠ [] := by
    intro h
    rw [List.map_eq_nil_iff] at h
    exact absurd (h ▸ ha) (List.not_mem_nil a)
  obtain ⟨hk, hminval⟩ := argminIdx_min (pts.map f) hne
  have hk2 : argminIdx (pts.map f) < pts.length := by
    simpa using hk
  have h1 : pts.getD (argminIdx (pts.map f)) d
      = pts.get ⟨argminIdx (pts.map f), hk2⟩ := getD_of_lt pts d _ hk2
  rw [h1]
  have hfb : (pts.map f).get ⟨argminIdx (pts.map f), hk⟩
      = f (pts.get ⟨argminIdx (pts.map f), hk2⟩) := by
    simp [List.get_eq_getElem]
  have hbmem : pts.get ⟨argminIdx (pts.map f), hk2⟩ ∈ pts :=
    List.get_mem pts _ hk2
  by_contra hne2
  have hlt3 : f a < f (pts.get ⟨argminIdx (pts.map f), hk2⟩) :=
    hmin _ hbmem hne2
  have hle : (pts.map f).get ⟨argminIdx (pts.map f), hk⟩ ≤ f a :=
    hminval (f a) (List.mem_map_of_mem f ha)
  rw [hfb] at hle
  exact absurd (lt_of_lt_of_le hlt3 hle) (lt_irrefl _)


/-- If `a` is the unique strict maximizer of `f` over `pts`, then the point
selected by argmax of the mapped values is `a`. -/
theorem getD_argmaxIdx_map {pts : List (ℚ × ℚ)} {f : ℚ × ℚ → ℚ}
    {a : ℚ × ℚ} (d : ℚ × ℚ) (ha : a ∈ pts)
    (hmax : ∀ b ∈ pts, b ≠ a → f b < f a) :
    pts.getD (argmaxIdx (pts.map f)) d = a := by
  have hne : pts.map f ≠ [] := by
    intro h
    rw [List.map_eq_nil_iff] at h
    exact absurd (h ▸ ha) (List.not_mem_nil a)
  obtain ⟨hk, hmaxval⟩ := argmaxIdx_max (pts.map f) hne
  have hk2 : argmaxIdx (pts.map f) < pts.length := by
    simpa using hk
  have h1 : pts.getD (argmaxIdx (pts.map f)) d
      = pts.get ⟨argmaxIdx (pts.map f), hk2⟩ := getD_of_lt pts d _ hk2
  rw [h1]
  have hfb : (pts.map f).get ⟨argmaxIdx (pts.map f), hk⟩
      = f (pts.get ⟨argmaxIdx (pts.map f), hk2⟩) := by
    simp [List.get_eq_getElem]
  have hbmem : pts.get ⟨argmaxIdx (pts.map f), hk2⟩ ∈ pts :=
    List.get_mem pts _ hk2
  by_contra hne2
  have hlt3 : f (pts.get ⟨argmaxIdx (pts.map f), hk2⟩) < f a :=
    hmax _ hbmem hne2
  have hle : f a ≤ (pts.map f).get ⟨argmaxIdx (pts.map f), hk⟩ :=
    hmaxval (f a) (List.mem_map_of_mem f ha)
  rw [hfb] at hle
  exact absurd (lt_of_le_of_lt hle hlt3) (lt_irrefl _)


/-- C3 counterexample: on the axis-aligned square (0,0),(10,0),(10,10),(0,10)
-- the concrete square used by the specification itself -- the function
returns [(0,0),(10,0),(10,10),(0,10)], so the point placed in the top-right
slot is (10,0); but of the two points remaining after top-left and
bottom-right are fixed, the one minimizing x - y is (0,10) (since
0 - 10 < 10 - 0), not the returned (10,0).  The claim, which says the
top-right slot minimizes x - y, therefore predicts (0,10) and is false:
the code takes the argmin of y - x (equivalently the argmax of x - y). -/
theorem C3_counterexample :
    ptsToClockwiseRect [((0 : ℚ), (0 : ℚ)), (10, 0), (10, 10), (0, 10)]
      = [(0, 0), (10, 0), (10, 10), (0, 10)] ∧
    (ptsToClockwiseRect [((0 : ℚ), (0 : ℚ)), (10, 0), (10, 10), (0, 10)]).getD 1 (0, 0)
      ≠ (0, 10) ∧
    ((0 : ℚ) - 10 < 10 - 0) := by
  have h : ptsToClockwiseRect [((0 : ℚ), (0 : ℚ)), (10, 0), (10, 10), (0, 10)]
      = [(0, 0), (10, 0), (10, 10), (0, 10)] := by
    norm_num [ptsToClockwiseRect, argminIdx, argmaxIdx, argminAux, argmaxAux,
      List.getD]
  refine ⟨h, ?_, by norm_num⟩
  rw [h]
  intro hcontra
  simp only [List.getD, List.getD_eq_getElem?_getD] at hcontra
  norm_num at hcontra


/-- C3 as corrected: for every list of four points that is a permutation of
the corners of an axis-aligned rectangle with x0 < x1 and y0 < y1 (y grows
downward in image coordinates), the function returns
[top-left, top-right, bottom-right, bottom-left]: top-left is the point
minimizing x + y, bottom-right the point maximizing x + y, and, of the
coordinate difference, the point placed top-right is the one minimizing
y - x (equivalently maximizing x - y, not minimizing it as the claim
stated) and bottom-left the one maximizing y - x. -/
theorem C3_ptsToClockwiseRect_corrected (pts : List (ℚ × ℚ)) (x0 x1 y0 y1 : ℚ)
    (hx : x0 < x1) (hy : y0 < y1)
    (hperm : pts.Perm [(x0, y0), (x1, y0), (x1, y1), (x0, y1)]) :
    ptsToClockwiseRect pts = [(x0, y0), (x1, y0), (x1, y1), (x0, y1)] := by
  have hmem : ∀ b ∈ pts,
      b = (x0, y0) ∨ b = (x1, y0) ∨ b = (x1, y1) ∨ b = (x0, y1) := by
    intro b hb
    have hb2 := hperm.mem_iff.mp hb
    simpa using hb2
  have h00 : (x0, y0) ∈ pts := hperm.mem_iff.mpr (by simp)
  have h10 : (x1, y0) ∈ pts := hperm.mem_iff.mpr (by simp)
  have h11 : (x1, y1) ∈ pts := hperm.mem_iff.mpr (by simp)
  have h01 : (x0, y1) ∈ pts := hperm.mem_iff.mpr (by simp)
  have hmin0 : ∀ b ∈ pts, b ≠ (x0, y0) →
      (fun p : ℚ × ℚ => p.1 + p.2) (x0, y0) < (fun p : ℚ × ℚ => p.1 + p.2) b := by
    intro b hb hbne
    rcases hmem b hb with rfl | rfl | rfl | rfl
    · exact absurd rfl hbne
    · dsimp only; linarith
    · dsimp only; linarith
    · dsimp only; linarith
  have hmin1 : ∀ b ∈ pts, b ≠ (x1, y0) →
      (fun p : ℚ × ℚ => p.2 - p.1) (x1, y0) < (fun p : ℚ × ℚ => p.2 - p.1) b := by
    intro b hb hbne
    rcases hmem b hb with rfl | rfl | rfl | rfl
    · dsimp only; linarith
    · exact absurd rfl hbne
    · dsimp only; linarith
    · dsimp only; linarith
  have hmax0 : ∀ b ∈ pts, b ≠ (x1, y1) →
      (fun p : ℚ × ℚ => p.1 + p.2) b < (fun p : ℚ × ℚ => p.1 + p.2) (x1, y1) := by
    intro b hb hbne
    rcases hmem b hb with rfl | rfl | rfl | rfl
    · dsimp only; linarith
    · dsimp only; linarith
    · exact absurd rfl hbne
    · dsimp only; linarith
  have hmax1 : ∀ b ∈ pts, b ≠ (x0, y1) →
      (fun p : ℚ × ℚ => p.2 - p.1) b < (fun p : ℚ × ℚ => p.2 - p.1) (x0, y1) := by
    intro b hb hbne
    rcases hmem b hb with rfl | rfl | rfl | rfl
    · dsimp only; linarith
    · dsimp only; linarith
    · dsimp only; linarith
    · exact absurd rfl hbne
  have e1 : pts.getD (argminIdx (pts.map (fun p => p.1 + p.2))) (0, 0) = (x0, y0) :=
    getD_argminIdx_map (0, 0) h00 hmin0
  have e2 : pts.getD (argminIdx (pts.map (fun p => p.2 - p.1))) (0, 0) = (x1, y0) :=
    getD_argminIdx_map (0, 0) h10 hmin1
  have e3 : pts.getD (argmaxIdx (pts.map (fun p => p.1 + p.2))) (0, 0) = (x1, y1) :=
    getD_argmaxIdx_map (0, 0) h11 hmax0
  have e4 : pts.getD (argmaxIdx (pts.map (fun p => p.2 - p.1))) (0, 0) = (x0, y1) :=
    getD_argmaxIdx_map (0, 0) h01 hmax1
  unfold ptsToClockwiseRect
  rw [e1, e2, e3, e4]


/-- Witness for C3: the corrected theorem applied to a concrete shuffled
square, whose corners are returned in clockwise order starting at the
top-left. -/
theorem C3_witness :
    ptsToClockwiseRect [((10 : ℚ), (0 : ℚ)), (0, 10), (0, 0), (10, 10)]
      = [(0, 0), (10, 0), (10, 10), (0, 10)] :=
  C3_ptsToClockwiseRect_corrected _ 0 10 0 10 (by norm_num) (by norm_num)
    (by decide)


/-- C4: the claim fails on the code.  Starting from a chunk with markers
"target 1" and "target 2" and no scalebars, building from the definition
(1,2) and then again from the identical definition reuses the existing bar
(one constraint remains), but building from the reversed definition (2,1)
does not recognize the existing (1,2) bar -- the source condition on line
93 tests existingbar.point0 against marker1 twice and never tests
existingbar.point1 against marker1 -- so a second constraint over the same
unordered marker pair is created: the chunk ends with two scalebars,
(target 1, target 2) and (target 2, target 1). -/
theorem C4_build_scalebars_duplicate_on_reversed_pair :
    ((build_scalebars_from_list
        (build_scalebars_from_list
          ⟨[⟨"target 1".toList⟩, ⟨"target 2".toList⟩], []⟩
          [⟨1, 2, 10, "cm".toList⟩])
        [⟨1, 2, 10, "cm".toList⟩]).scalebars.length = 1) ∧
    ((build_scalebars_from_list
        (build_scalebars_from_list
          ⟨[⟨"target 1".toList⟩, ⟨"target 2".toList⟩], []⟩
          [⟨1, 2, 10, "cm".toList⟩])
        [⟨2, 1, 10, "cm".toList⟩]).scalebars.map
          (fun b => (b.point0, b.point1))
      = [(⟨"target 1".toList⟩, ⟨"target 2".toList⟩),
         (⟨"target 2".toList⟩, ⟨"target 1".toList⟩)]) := by
  constructor
  · decide
  · decide


/-- C6: the claim is behaviour the code was written for but fails to
implement.  For every chunk with no markers, find_axes_from_markers
returns None (not a list), so the `len(axes)==0` test in reorient_model
raises TypeError: no warning-and-return, and the claimed normal
completion never happens. -/
theorem C6_reorient_model_no_markers (normF : Vec3 → Vec3)
    (pal : PaletteAxes) (chunk : AxChunk) (h : chunk.markers = []) :
    find_axes_from_markers normF pal chunk = Except.ok none ∧
    reorient_model normF pal chunk = Except.error PyErr.typeError := by
  have h1 : find_axes_from_markers normF pal chunk = Except.ok none := by
    unfold find_axes_from_markers
    rw [if_pos h]
  refine ⟨h1, ?_⟩
  unfold reorient_model
  rw [h1]


/-- Witness for C6: a concrete empty chunk, with the identity in place of
the engine normalization and an empty palette. -/
theorem C6_witness :
    reorient_model id ⟨[], [], [], []⟩ ⟨[]⟩ = Except.error PyErr.typeError :=
  (C6_reorient_model_no_markers id ⟨[], [], [], []⟩ ⟨[]⟩ rfl).2


/-- C8: the claim fails on the code.  MaskingOptions defines
MASK_CONTEXT_AWARE_DROPLET but no attribute named MASK_DROPLET, so the
comparison `mode == util.MaskingOptions.MASK_DROPLET` raises
AttributeError for every mode -- build_masks neither dispatches to the
droplet routine for the context-aware mode nor returns quietly for the
other modes. -/
theorem C8_build_masks_attribute_error :
    ∀ mode : ℕ, build_masks mode = Except.error PyAttrErr.attributeError := by
  intro mode
  have h : MaskingOptionsAttr "MASK_DROPLET".toList = none := by decide
  unfold build_masks
  rw [h]


/-- A suffix test on an appended list only depends on the tail when the
suffix is no longer than the tail. -/
theorem pyEndsWith_append (s t suf : PyStr) (h : suf.length ≤ t.length) :
    pyEndsWith (s ++ t) suf = pyEndsWith t suf := by
  unfold pyEndsWith
  have h1 : suf.length ≤ (s ++ t).length := by
    rw [List.length_append]; omega
  rw [if_pos h1, if_pos h]
  have h2 : (s ++ t).length - suf.length
      = s.length + (t.length - suf.length) := by
    rw [List.length_append]; omega
  rw [h2, List.drop_append_eq_append_drop]
  have h3 : List.drop (s.length + (t.length - suf.length)) s = [] :=
    List.drop_eq_nil_of_le (by omega)
  have h4 : s.length + (t.length - suf.length) - s.length
      = t.length - suf.length := by omega
  rw [h3, h4, List.nil_append]


/-- C10: a source path with the four-letter TIFF extension (either case)
and configured Destination_Type ".JPG" is not converted: the TIFF branch
of process_image tests endswith("TIF") on the uppercased path, the
uppercased path ends in "IFF", and no other branch applies, so the
function returns the initial empty string. -/
theorem C10_process_image_tiff_suffix (p q output : PyStr)
    (h : p = q ++ ".TIFF".toList ∨ p = q ++ ".tiff".toList) :
    process_image p output ".JPG".toList = [] := by
  have hup : pyUpper p = pyUpper q ++ ".TIFF".toList := by
    rcases h with rfl | rfl
    · unfold pyUpper
      rw [List.map_append]
      congr 1
    · unfold pyUpper
      rw [List.map_append]
      congr 1
  have hdest : pyUpper ".JPG".toList = ".JPG".toList := by decide
  unfold process_image
  rw [hup, hdest]
  rw [pyEndsWith_append _ _ _ (by decide),
    pyEndsWith_append _ _ _ (by decide : ("CR2".toList).length ≤ (".TIFF".toList).length),
    pyEndsWith_append _ _ _ (by decide : ("TIF".toList).length ≤ (".TIFF".toList).length)]
  have e1 : pyEndsWith ".TIFF".toList ".JPG".toList = false := by decide
  have e2 : pyEndsWith ".TIFF".toList "CR2".toList = false := by decide
  have e3 : pyEndsWith ".TIFF".toList "TIF".toList = false := by decide
  rw [e1, e2, e3]
  simp


/-- Witness for C10: the concrete lowercase path photo.tiff with
destination type .JPG yields the empty path. -/
theorem C10_witness :
    process_image "photo.tiff".toList "out".toList ".JPG".toList = [] :=
  C10_process_image_tiff_suffix "photo.tiff".toList "photo".toList
    "out".toList (Or.inr (by decide))


/-- Assignment stores the value under its key. -/
theorem dictGet_dictSet_same (d : List (TagKey × ℕ)) (k : TagKey) (v : ℕ) :
    dictGet (dictSet d k v) k = some v := by
  induction d with
  | nil => simp [dictSet, dictGet, List.find?]
  | cons p rest ih =>
      by_cases h : p.1 = k
      · simp [dictSet, dictGet, List.find?, h]
      · rcases p with ⟨k0, v0⟩
        simp only at h
        rw [dictSet, if_neg h]
        simpa [dictGet, List.find?, h] using ih


/-- Assignment leaves other keys unchanged. -/
theorem dictGet_dictSet_other (d : List (TagKey × ℕ)) (k k2 : TagKey) (v : ℕ)
    (h : k2 ≠ k) : dictGet (dictSet d k v) k2 = dictGet d k2 := by
  induction d with
  | nil => simp [dictSet, dictGet, List.find?, Ne.symm h]
  | cons p rest ih =>
      rcases p with ⟨k0, v0⟩
      by_cases h0 : k0 = k
      · subst h0
        rw [dictSet, if_pos rfl]
        simp [dictGet, List.find?, Ne.symm h]
      · rw [dictSet, if_neg h0]
        by_cases h2 : k0 = k2
        · subst h2
          simp [dictGet, List.find?]
        · simp only [dictGet, List.find?] at ih ⊢
          rw [show (decide (k0 = k2)) = false by simp [h2]]
          simpa using ih


/-- The nested flattening never creates a MakerNote key: an entry whose
resolved name is MakerNote is on the skip list. -/
theorem flatten_no_makernote (env : ExifEnv) (entries : List (ℕ × ℕ)) :
    ∀ d, dictGet (entries.foldl (flattenIfdEntry env) d)
      (Sum.inl "MakerNote".toList)
      = dictGet d (Sum.inl "MakerNote".toList) := by
  induction entries with
  | nil => intro d; rfl
  | cons p rest ih =>
      intro d
      rw [List.foldl_cons, ih]
      unfold flattenIfdEntry
      by_cases hskip : nestedTagName env p.1 = Sum.inl "MakerNote".toList ∨
          nestedTagName env p.1 = Sum.inl "UserComment".toList
      · rw [if_pos hskip]
      · rw [if_neg hskip]
        apply dictGet_dictSet_other
        intro hcontra
        exact hskip (Or.inl hcontra.symm)


/-- The nested flattening preserves the presence of any key. -/
theorem flatten_preserves_key (env : ExifEnv) (entries : List (ℕ × ℕ))
    (k : TagKey) :
    ∀ d, (dictGet d k).isSome = true →
      (dictGet (entries.foldl (flattenIfdEntry env) d) k).isSome = true := by
  induction entries with
  | nil => intro d h; exact h
  | cons p rest ih =>
      intro d h
      rw [List.foldl_cons]
      apply ih
      unfold flattenIfdEntry
      by_cases hskip : nestedTagName env p.1 = Sum.inl "MakerNote".toList ∨
          nestedTagName env p.1 = Sum.inl "UserComment".toList
      · rw [if_pos hskip]; exact h
      · rw [if_neg hskip]
        by_cases hk : k = nestedTagName env p.1
        · rw [hk, dictGet_dictSet_same]; rfl
        · rw [dictGet_dictSet_other _ _ _ _ hk]; exact h


/-- C7: for a tag set holding one nested IFD block whose single entry
resolves to GPSLatitude and a separate top-level MakerNote tag, the
flattened mapping contains GPSLatitude as a top-level key and no MakerNote
key.  The MakerNote code 0x927C is itself an IFD pointer in PIL
(ExifTags.IFD.Makernote), so the IFD branch consumes it without ever
assigning its name, and any nested entry resolving to MakerNote is on the
skip list, whatever the contents of the MakerNote block. -/
theorem C7_get_exif_data (env : ExifEnv) (cg cm k v a b : ℕ)
    (hg : cg ∈ env.ifdCodes)
    (hm : cm ∈ env.ifdCodes)
    (hgps : env.getIfd cg = [(k, v)])
    (hname : nestedTagName env k = Sum.inl "GPSLatitude".toList) :
    (dictGet (get_exif_data env [(cg, a), (cm, b)])
      (Sum.inl "GPSLatitude".toList)).isSome = true ∧
    dictGet (get_exif_data env [(cg, a), (cm, b)])
      (Sum.inl "MakerNote".toList) = none := by
  have hstep : get_exif_data env [(cg, a), (cm, b)]
      = (env.getIfd cm).foldl (flattenIfdEntry env)
          ((env.getIfd cg).foldl (flattenIfdEntry env)
            [(Sum.inr cg, a), (Sum.inr cm, b)]) := by
    unfold get_exif_data
    rw [List.foldl_cons, List.foldl_cons, List.foldl_nil]
    simp only [processExifEntry, if_pos hg, if_pos hm, List.map_cons,
      List.map_nil]
  have hinner : (env.getIfd cg).foldl (flattenIfdEntry env)
      [(Sum.inr cg, a), (Sum.inr cm, b)]
      = dictSet [(Sum.inr cg, a), (Sum.inr cm, b)]
          (Sum.inl "GPSLatitude".toList) v := by
    rw [hgps, List.foldl_cons, List.foldl_nil]
    unfold flattenIfdEntry
    rw [hname, if_neg (by decide)]
  constructor
  · rw [hstep, hinner]
    apply flatten_preserves_key
    rw [dictGet_dictSet_same]
    rfl
  · rw [hstep, hinner, flatten_no_makernote,
      dictGet_dictSet_other _ _ _ _ (by decide)]
    rfl


/-- Witness for C7: a concrete PIL-like environment where the GPSInfo
block (code 34853) holds GPSLatitude (sub-code 2) and the MakerNote IFD
(code 37500) holds one entry that resolves to the skipped name MakerNote;
the flattened mapping holds GPSLatitude and no MakerNote. -/
theorem C7_witness :
    (dictGet (get_exif_data
      ⟨[34853, 37500],
        (fun c => if c = 37500 then some "MakerNote".toList else none),
        (fun c => if c = 2 then some "GPSLatitude".toList else none),
        (fun c => if c = 34853 then [(2, 77)]
                  else if c = 37500 then [(37500, 9)] else [])⟩
      [(34853, 5), (37500, 6)]) (Sum.inl "GPSLatitude".toList)).isSome
      = true ∧
    dictGet (get_exif_data
      ⟨[34853, 37500],
        (fun c => if c = 37500 then some "MakerNote".toList else none),
        (fun c => if c = 2 then some "GPSLatitude".toList else none),
        (fun c => if c = 34853 then [(2, 77)]
                  else if c = 37500 then [(37500, 9)] else [])⟩
      [(34853, 5), (37500, 6)]) (Sum.inl "MakerNote".toList) = none :=
  C7_get_exif_data _ 34853 37500 2 77 5 6 (by decide) (by decide) (by decide)
    (by decide)


/-- A chunk with cameras skips photo loading. -/
theorem stagePhotos_done (c : MChunk) (h : c.cameras = true) :
    stagePhotos c = (c, []) := by
  unfold stagePhotos
  rw [if_neg (by simp [h])]


/-- A chunk with a sparse cloud skips matching and alignment. -/
theorem stageMatch_done (c : MChunk) (h : c.point_cloud = true) :
    stageMatch c = (c, []) := by
  unfold stageMatch
  rw [if_neg (by simp [h])]


/-- A chunk with a mesh skips sparse-cloud refinement. -/
theorem stageRefine_skip (c : MChunk) (h : c.model = true) :
    stageRefine c = (c, []) := by
  unfold stageRefine
  rw [if_neg (by simp [h])]


/-- A chunk with a mesh skips depth maps and model building. -/
theorem stageBuildModel_done (c : MChunk) (h : c.model = true) :
    stageBuildModel c = (c, []) := by
  unfold stageBuildModel
  rw [if_neg (by simp [h])]


/-- Marker detection changes no artifact flag except markers. -/
theorem stageMarkers_fields (pal : Option BPalette) (c : MChunk) :
    (stageMarkers pal c).1.cameras = c.cameras ∧
    (stageMarkers pal c).1.point_cloud = c.point_cloud ∧
    (stageMarkers pal c).1.scalebars = c.scalebars ∧
    (stageMarkers pal c).1.model = c.model ∧
    (stageMarkers pal c).1.textures = c.textures := by
  rcases pal with _ | p
  · simp [stageMarkers]
  · by_cases h : c.markers = false <;> simp [stageMarkers, h]


/-- Marker detection emits at most the detectMarkers action. -/
theorem stageMarkers_actions (pal : Option BPalette) (c : MChunk) :
    ∀ a ∈ (stageMarkers pal c).2, a = BAction.detectMarkers := by
  rcases pal with _ | p
  · simp [stageMarkers]
  · by_cases h : c.markers = false <;> simp [stageMarkers, h]


/-- Scalebar building changes no artifact flag except scalebars. -/
theorem stageScalebars_fields (pal : Option BPalette) (c : MChunk) :
    (stageScalebars pal c).1.textures = c.textures := by
  rcases pal with _ | p
  · simp [stageScalebars]
  · by_cases h : p.hasScalebarsDef = true ∧ c.scalebars = false <;>
      simp [stageScalebars, h]


/-- Scalebar building emits at most one scalebar action. -/
theorem stageScalebars_actions (pal : Option BPalette) (c : MChunk) :
    ∀ a ∈ (stageScalebars pal c).2,
      a = BAction.buildScalebarsList ∨ a = BAction.buildScalebarsSeq := by
  rcases pal with _ | p
  · simp [stageScalebars]
  · by_cases h : p.hasScalebarsDef = true ∧ c.scalebars = false
    · by_cases he : p.scalebarsExplicit = true <;>
        simp [stageScalebars, h, he]
    · simp [stageScalebars, h]


/-- With markers already detected (or no palette), stage 5 is a no-op. -/
theorem stageMarkers_done (pal : Option BPalette) (c : MChunk)
    (h : pal.isSome = true → c.markers = true) :
    stageMarkers pal c = (c, []) := by
  rcases pal with _ | p
  · simp [stageMarkers]
  · have hm := h rfl
    unfold stageMarkers
    rw [if_neg (by simp [hm])]


/-- With scalebars already built (or none defined), stage 8 is a no-op. -/
theorem stageScalebars_done (pal : Option BPalette) (c : MChunk)
    (h : ∀ p, pal = some p → p.hasScalebarsDef = true → c.scalebars = true) :
    stageScalebars pal c = (c, []) := by
  rcases pal with _ | p
  · simp [stageScalebars]
  · have hcond : ¬ (p.hasScalebarsDef = true ∧ c.scalebars = false) := by
      rintro ⟨h1, h2⟩
      rw [h p rfl h1] at h2
      cases h2
    simp [stageScalebars, hcond]


/-- A textured chunk skips UV and texture building. -/
theorem stageTexture_done (c : MChunk) (h : c.textures = true) :
    stageTexture c = (c, []) := by
  unfold stageTexture
  rw [if_neg (by simp [h])]


/-- Over a list of textured chunks the texture loop emits nothing and
leaves the chunks unchanged. -/
theorem stageTexture_loop_done (l : List MChunk)
    (h : ∀ ch ∈ l, ch.textures = true) :
    ((l.map stageTexture).map Prod.snd).flatten = [] ∧
    (l.map stageTexture).map Prod.fst = l := by
  induction l with
  | nil => simp
  | cons c rest ih =>
      have hc : stageTexture c = (c, []) :=
        stageTexture_done c (h c (List.mem_cons_self c rest))
      have ih2 := ih (fun ch hch => h ch (List.mem_cons_of_mem _ hch))
      constructor
      · rw [List.map_cons, List.map_cons, List.flatten_cons, hc, ih2.1]
        rfl
      · rw [List.map_cons, List.map_cons, hc, ih2.2]


/-- Every export action is exportModel. -/
theorem exportActions_mem (e : PyStr) :
    ∀ a ∈ exportActions e, a = BAction.exportModel := by
  intro a ha
  unfold exportActions at ha
  by_cases h1 : e = "none".toList
  · rw [if_pos h1] at ha; cases ha
  · rw [if_neg h1] at ha
    by_cases h2 : e = "all".toList
    · rw [if_pos h2] at ha
      rcases List.mem_cons.mp ha with rfl | ha2
      · rfl
      · simpa using ha2
    · rw [if_neg h2] at ha
      simpa using ha


/-- Every stage-12 action is a reorient or an export. -/
theorem reorientExportActions_mem (cfg : BConfig) :
    ∀ a ∈ reorientExportActions cfg,
      a = BAction.reorientModel ∨ a = BAction.exportModel := by
  intro a ha
  unfold reorientExportActions at ha
  rw [List.mem_append] at ha
  rcases ha with ha | ha
  · left
    rcases hp : cfg.palette with _ | p
    · rw [hp] at ha; cases ha
    · rw [hp] at ha; simpa using ha
  · exact Or.inr (exportActions_mem _ a ha)


/-- Flattening a constant-valued map only yields members of that value. -/
theorem flatten_const_mem (l : List MChunk) (A : List BAction) (a : BAction)
    (h : a ∈ (l.map (fun _ => A)).flatten) : a ∈ A := by
  induction l with
  | nil => simpa using h
  | cons c rest ih =>
      rw [List.map_cons, List.flatten_cons, List.mem_append] at h
      rcases h with h | h
      · exact h
      · exact ih h


/-- C2 as corrected: on every project state whose first chunk already has
cameras, a sparse cloud and a mesh, and all of whose chunks are textured,
re-invoking buildBasicModel performs no photo loading, no photo matching
or camera alignment, no depth-map or mesh build, and no UV or texture
build.  The further stages it may re-run are not limited to blob cleanup,
hole closing, reorientation and export: marker detection, scalebar
creation and the decimated-duplicate copy also run when their artifacts
are missing; exactly when markers and scalebars (under a configured
palette) are already present and no decimated duplicate remains to be
created (decimation off, or at least two chunks), only cleanup, hole
closing, reorientation and export execute. -/
theorem C2_build_basic_model_corrected (doc : MDoc) (cfg : BConfig)
    (decimate : Bool) (c : MChunk) (rest : List MChunk)
    (hchunks : doc.chunks = c :: rest)
    (hcam : c.cameras = true) (hpc : c.point_cloud = true)
    (hmodel : c.model = true)
    (htex : ∀ ch ∈ doc.chunks, ch.textures = true) :
    (BAction.loadPhotos ∉ (build_basic_model doc cfg decimate).2 ∧
     BAction.matchPhotos ∉ (build_basic_model doc cfg decimate).2 ∧
     BAction.alignCameras ∉ (build_basic_model doc cfg decimate).2 ∧
     BAction.buildDepthMaps ∉ (build_basic_model doc cfg decimate).2 ∧
     BAction.buildModel ∉ (build_basic_model doc cfg decimate).2 ∧
     BAction.buildUV ∉ (build_basic_model doc cfg decimate).2 ∧
     BAction.buildTexture ∉ (build_basic_model doc cfg decimate).2) ∧
    ((cfg.palette.isSome = true → c.markers = true) →
     (∀ p, cfg.palette = some p → p.hasScalebarsDef = true →
        c.scalebars = true) →
     (decimate = true → 2 ≤ doc.chunks.length) →
     (BAction.cleanupBlobs ∈ (build_basic_model doc cfg decimate).2 ∧
      BAction.closeHoles ∈ (build_basic_model doc cfg decimate).2 ∧
      ∀ a ∈ (build_basic_model doc cfg decimate).2,
        a = BAction.cleanupBlobs ∨ a = BAction.closeHoles ∨
        a = BAction.reorientModel ∨ a = BAction.exportModel)) := by
  have hctex : c.textures = true :=
    htex c (by rw [hchunks]; exact List.mem_cons_self c rest)
  have hrtex : ∀ ch ∈ rest, ch.textures = true := fun ch hch =>
    htex ch (by rw [hchunks]; exact List.mem_cons_of_mem _ hch)
  have h1 : stagePhotos c = (c, []) := stagePhotos_done c hcam
  have h2 : stageMatch c = (c, []) := stageMatch_done c hpc
  set c3 := (stageMarkers cfg.palette c).1 with hc3
  have hf3 := stageMarkers_fields cfg.palette c
  have hc3model : c3.model = true := hf3.2.2.2.1.trans hmodel
  have hc3tex : c3.textures = true := hf3.2.2.2.2.trans hctex
  have h4 : stageRefine c3 = (c3, []) := stageRefine_skip c3 hc3model
  have h5 : stageBuildModel c3 = (c3, []) := stageBuildModel_done c3 hc3model
  set c6 := (stageScalebars cfg.palette c3).1 with hc6
  have hc6tex : c6.textures = true :=
    (stageScalebars_fields cfg.palette c3).trans hc3tex
  have hall1 : ∀ ch ∈ c6 :: rest ++ [c6], ch.textures = true := by
    intro ch hch
    rcases List.mem_cons.mp hch with rfl | hch2
    · exact hc6tex
    · rcases List.mem_append.mp hch2 with hch3 | hch3
      · exact hrtex ch hch3
      · rw [List.mem_singleton.mp hch3]; exact hc6tex
  have hall2 : ∀ ch ∈ c6 :: rest, ch.textures = true := by
    intro ch hch
    rcases List.mem_cons.mp hch with rfl | hch2
    · exact hc6tex
    · exact hrtex ch hch2
  have htrace : (build_basic_model doc cfg decimate).2
      = (stageMarkers cfg.palette c).2
        ++ ((stageScalebars cfg.palette c3).2
        ++ ([BAction.cleanupBlobs, BAction.closeHoles]
        ++ ((if decimate = true ∧ (c6 :: rest).length < 2
            then [BAction.copyChunkDecimate] else ([] : List BAction))
        ++ ((if decimate = true ∧ (c6 :: rest).length < 2
             then c6 :: rest ++ [c6] else c6 :: rest).map
              (fun _ => reorientExportActions cfg)).flatten))) := by
    by_cases hdec : decimate = true ∧ (c6 :: rest).length < 2
    · obtain ⟨hj, hf⟩ := stageTexture_loop_done (c6 :: rest ++ [c6]) hall1
      simp only [build_basic_model, hchunks, List.isEmpty_cons,
        Bool.false_eq_true, if_false, List.headD_cons, List.tail_cons, h1, h2,
        ← hc3, h4, h5, ← hc6, if_pos hdec, hj, hf, List.nil_append,
        List.append_nil, List.append_assoc]
    · obtain ⟨hj, hf⟩ := stageTexture_loop_done (c6 :: rest) hall2
      simp only [build_basic_model, hchunks, List.isEmpty_cons,
        Bool.false_eq_true, if_false, List.headD_cons, List.tail_cons, h1, h2,
        ← hc3, h4, h5, ← hc6, if_neg hdec, hj, hf, List.nil_append,
        List.append_nil, List.append_assoc]
  have hres : ∀ a ∈ (build_basic_model doc cfg decimate).2,
      a ∈ [BAction.detectMarkers, BAction.buildScalebarsList,
        BAction.buildScalebarsSeq, BAction.cleanupBlobs, BAction.closeHoles,
        BAction.copyChunkDecimate, BAction.reorientModel,
        BAction.exportModel] := by
    intro a ha
    rw [htrace] at ha
    rcases List.mem_append.mp ha with ha | ha
    · rw [stageMarkers_actions cfg.palette c a ha]; simp
    rcases List.mem_append.mp ha with ha | ha
    · rcases stageScalebars_actions cfg.palette c3 a ha with rfl | rfl <;> simp
    rcases List.mem_append.mp ha with ha | ha
    · rcases List.mem_cons.mp ha with rfl | ha2
      · simp
      · rw [List.mem_singleton.mp ha2]; simp
    rcases List.mem_append.mp ha with ha | ha
    · by_cases hdec : decimate = true ∧ (c6 :: rest).length < 2
      · rw [if_pos hdec] at ha
        rw [List.mem_singleton.mp ha]; simp
      · rw [if_neg hdec] at ha; cases ha
    · have hmem := flatten_const_mem _ _ a ha
      rcases reorientExportActions_mem cfg a hmem with rfl | rfl <;> simp
  constructor
  · refine ⟨fun h => ?_, fun h => ?_, fun h => ?_, fun h => ?_, fun h => ?_,
      fun h => ?_, fun h => ?_⟩ <;> exact absurd (hres _ h) (by decide)
  · intro hmk hsb hdec2
    have hm : stageMarkers cfg.palette c = (c, []) :=
      stageMarkers_done cfg.palette c hmk
    have hc3c : c3 = c := by rw [hc3, hm]
    have hs : stageScalebars cfg.palette c3 = (c3, []) :=
      stageScalebars_done cfg.palette c3 (by rw [hc3c]; exact hsb)
    have hc6c : c6 = c3 := by rw [hc6, hs]
    have hnodec : ¬ (decimate = true ∧ (c6 :: rest).length < 2) := by
      rintro ⟨hd, hlen⟩
      have := hdec2 hd
      rw [hchunks] at this
      simp only [List.length_cons] at this hlen
      omega
    have htrace2 : (build_basic_model doc cfg decimate).2
        = [BAction.cleanupBlobs, BAction.closeHoles]
          ++ ((c6 :: rest).map (fun _ => reorientExportActions cfg)).flatten := by
      rw [htrace, hm, hs, if_neg hnodec, if_neg hnodec]
      simp
    refine ⟨by rw [htrace2]; simp, by rw [htrace2]; simp, ?_⟩
    intro a ha
    rw [htrace2] at ha
    rcases List.mem_append.mp ha with ha | ha
    · rcases List.mem_cons.mp ha with rfl | ha2
      · exact Or.inl rfl
      · exact Or.inr (Or.inl (List.mem_singleton.mp ha2))
    · have hmem := flatten_const_mem _ _ a ha
      rcases reorientExportActions_mem cfg a hmem with rfl | rfl
      · exact Or.inr (Or.inr (Or.inl rfl))
      · exact Or.inr (Or.inr (Or.inr rfl))


/-- C2 counterexample: a fully built single-chunk project (cameras, sparse
cloud, markers, scalebars, mesh, texture all present), no palette
configured, export format obj, decimation on (its default).  Re-invoking
the pipeline satisfies every hypothesis of the claim, yet the trace
contains the chunk-duplication/decimation step, which is none of blob
cleanup, hole closing, reorientation or export -- so the claim that only
those four re-run is false as stated. -/
theorem C2_counterexample :
    (build_basic_model ⟨[⟨true, true, true, true, true, true⟩]⟩
        ⟨none, "obj".toList⟩ true).2
      = [BAction.cleanupBlobs, BAction.closeHoles, BAction.copyChunkDecimate,
         BAction.exportModel, BAction.exportModel] ∧
    BAction.copyChunkDecimate ∈
      (build_basic_model ⟨[⟨true, true, true, true, true, true⟩]⟩
        ⟨none, "obj".toList⟩ true).2 ∧
    BAction.copyChunkDecimate ∉
      [BAction.cleanupBlobs, BAction.closeHoles, BAction.reorientModel,
       BAction.exportModel] := by
  refine ⟨by decide, by decide, by decide⟩


/-- Witness for C2: the corrected theorem applied to a concrete fully
built two-chunk project with a palette defining explicit scalebars and
export format "all": no matching runs, and every executed action is
cleanup, hole closing, reorientation or export. -/
theorem C2_witness :
    BAction.matchPhotos ∉
      (build_basic_model
        ⟨[⟨true, true, true, true, true, true⟩,
          ⟨true, true, true, true, true, true⟩]⟩
        ⟨some ⟨true, true⟩, "all".toList⟩ true).2 ∧
    (∀ a ∈ (build_basic_model
        ⟨[⟨true, true, true, true, true, true⟩,
          ⟨true, true, true, true, true, true⟩]⟩
        ⟨some ⟨true, true⟩, "all".toList⟩ true).2,
      a = BAction.cleanupBlobs ∨ a = BAction.closeHoles ∨
      a = BAction.reorientModel ∨ a = BAction.exportModel) := by
  have h := C2_build_basic_model_corrected
    ⟨[⟨true, true, true, true, true, true⟩,
      ⟨true, true, true, true, true, true⟩]⟩
    ⟨some ⟨true, true⟩, "all".toList⟩ true
    ⟨true, true, true, true, true, true⟩
    [⟨true, true, true, true, true, true⟩]
    rfl rfl rfl rfl (by decide)
  exact ⟨h.1.2.1,
    (h.2 (fun _ => rfl) (by intro p hp hdef; cases hp; rfl)
      (fun _ => by decide)).2.2⟩

end MuseumCode
